import Mathlib

/-!
Verification development for the emerald vault core.

The definitions below are a shallow embedding of the Rust sources:

* `src/storage/vault_bitcoin.rs` — the Bitcoin add-entry provisioning
  workflow (`AddBitcoinEntry::seed_hd`, `get_address`);
* `src/emerald-core/src/keystore/serialize/mod.rs` — keystore JSON
  (de)serialization, `list_accounts`, `write`, `flush`, `hide`, `unhide`;
* `src/emerald-core/src/hdwallet/ledger.rs` — Ledger APDU framing
  (`Ledger::sign_tx`);
* `src/src/storage.rs` — base-directory bootstrap (`Storages::init`);
* `src/src/convert/proto/pk.rs` — protobuf conversion of
  `PrivateKeyHolder`.

Machine integers are modelled as `Nat` (with explicit `% 256` and
31-bit bounds where the Rust code relies on them); fallible Rust code
returns `Except`.  Types that live in crates or modules outside the
given sources (the `hdpath` crate, `bitcoin` crate, `structs/*`,
`blockchain/chains.rs`) are modelled from the specification and are
marked as such in their doc comments.
-/

namespace EmeraldVault

/-! ## Blockchains and networks (modelled collaborator types) -/

/-- Modelled from the spec: `bitcoin::Network` of the external `bitcoin`
crate; only the mainnet/testnet distinction is observable here. -/
inductive Network where
  | bitcoin
  | testnet
deriving DecidableEq, Repr

/-- Modelled from the spec: `BlockchainType` of `blockchain/chains.rs`
(not under `src/`): the chain family, Bitcoin vs Ethereum. -/
inductive BlockchainType where
  | bitcoin
  | ethereum
deriving DecidableEq, Repr

/-- Modelled from the spec: the `Blockchain` enum of
`blockchain/chains.rs` (not under `src/`); the variants exercised by
the Bitcoin workflow plus one non-Bitcoin chain. -/
inductive Blockchain where
  | bitcoin
  | bitcoinTestnet
  | ethereum
deriving DecidableEq, Repr

/-- Modelled from the spec: `Blockchain::get_type`, the chain family. -/
def Blockchain.getType : Blockchain → BlockchainType
  | .bitcoin => .bitcoin
  | .bitcoinTestnet => .bitcoin
  | .ethereum => .ethereum

/-- Modelled from the spec: `Blockchain::as_bitcoin_network`; mainnet
for Bitcoin, testnet for BitcoinTestnet (only queried after the chain
family has been validated to be Bitcoin). -/
def Blockchain.asBitcoinNetwork : Blockchain → Network
  | .bitcoin => .bitcoin
  | .bitcoinTestnet => .testnet
  | .ethereum => .bitcoin

/-! ## HD paths (modelled from the `hdpath` crate, not under `src/`) -/

/-- Modelled from the spec: `hdpath::PathValue::is_ok` — a path segment
index is valid when it fits in 31 bits (top bit is the hardened
marker). -/
def PathValue.isOk (v : Nat) : Bool :=
  v < 0x80000000

/-- Modelled from the spec: `hdpath::AccountHDPath` — fixes
purpose / coin-type / account, leaving change and address index free. -/
structure AccountHDPath where
  purpose : Nat
  coin_type : Nat
  account : Nat
deriving DecidableEq, Repr

/-- Modelled from the spec: `hdpath::StandardHDPath` — a full 5-segment
path. -/
structure StandardHDPath where
  purpose : Nat
  coin_type : Nat
  account : Nat
  change : Nat
  index : Nat
deriving DecidableEq, Repr

/-- Modelled from the spec: `AccountHDPath::address_at(change, index)`,
which fails on out-of-range segment values. -/
def AccountHDPath.addressAt (a : AccountHDPath) (change index : Nat) :
    Option StandardHDPath :=
  if PathValue.isOk change && PathValue.isOk index then
    some ⟨a.purpose, a.coin_type, a.account, change, index⟩
  else
    none

/-- Modelled from the spec: the Bitcoin address types; the workflow in
`vault_bitcoin.rs` uses `P2WPKH` (segwit) only. -/
inductive AddressType where
  | P2WPKH
  | P2PKH
deriving DecidableEq, Repr

/-- Modelled from the spec: the coin-type segment per network — `0` for
mainnet, `1` for testnet. -/
def Network.coinType : Network → Nat
  | .bitcoin => 0
  | .testnet => 1

/-- Modelled from the spec: `AddressType::get_hd_path(account, network)`
maps the address type to its canonical purpose segment (84 for segwit
P2WPKH, 44 for legacy) and the network's coin type, fixing the account
segment. -/
def AddressType.getHdPath : AddressType → Nat → Network → AccountHDPath
  | .P2WPKH, account, network => ⟨84, network.coinType, account⟩
  | .P2PKH, account, network => ⟨44, network.coinType, account⟩

/-! ## Keys and errors -/

/-- Modelled from the spec: `bitcoin::util::bip32::ExtendedPubKey`; the
observable parts are the network tag and the key material (abstracted
to a `Nat`). -/
structure ExtendedPubKey where
  network : Network
  key : Nat
deriving DecidableEq, Repr

/-- Modelled from the spec: `blockchain::bitcoin::XPub` — an extended
public key together with its address type. -/
structure XPub where
  value : ExtendedPubKey
  address_type : AddressType
deriving DecidableEq, Repr

/-- Modelled from the spec: `XPub::standard` wraps a raw extended public
key with the standard (P2WPKH) address type. -/
def XPub.standard (value : ExtendedPubKey) : XPub :=
  ⟨value, .P2WPKH⟩

/-- Modelled from the spec: the `VaultError` variants surfaced by the
sources under `src/` (§7 error taxonomy). -/
inductive VaultError where
  | NotFound (id : Nat)
  | PasswordRequired
  | InvalidPassword
  | InvalidPrivateKey
  | PrivateKeyUnavailable
  | PublicKeyUnavailable
  | IncorrectBlockchainError
  | InvalidDataError (msg : String)
  | UnsupportedDataError (msg : String)
  | LedgerError
deriving DecidableEq, Repr

/-- Modelled from the spec: `structs::crypto::Encrypted` (not under
`src/`) — an encrypted container; §4.1: decryption with the right
passphrase returns the plaintext, any other passphrase fails with an
authentication error and never returns partial data. -/
structure Encrypted where
  plaintext : List Nat
  password : String
deriving DecidableEq, Repr

/-- Modelled from the spec: `Encrypted::decrypt` (§4.1). -/
def Encrypted.decrypt (e : Encrypted) (pass : String) :
    Except VaultError (List Nat) :=
  if pass = e.password then .ok e.plaintext else .error .InvalidPassword

/-! ## Seeds, wallets, vault state -/

/-- Modelled from the spec: `structs::seed::SeedSource` (not under
`src/`): raw entropy in an encrypted container, or a hardware-device
reference. -/
inductive SeedSource where
  | bytes (enc : Encrypted)
  | ledger (fingerprints : List Nat)
deriving DecidableEq, Repr

/-- Modelled from the spec: `structs::seed::Seed` (not under `src/`). -/
structure Seed where
  id : Nat
  label : Option String
  source : SeedSource
deriving DecidableEq, Repr

/-- Modelled from the spec: `structs::seed::SeedRef` — a seed id plus a
full derivation path. -/
structure SeedRef where
  seed_id : Nat
  hd_path : StandardHDPath
deriving DecidableEq, Repr

/-- Modelled from the spec: `structs::wallet::PKType` — the polymorphic
key source of an entry (§9); the variants relevant to the claims. -/
inductive PKType where
  | seedHd (r : SeedRef)
  | privateKeyRef (id : Nat)
deriving DecidableEq, Repr

/-- Modelled from the spec: `structs::book::AddressRef` — a plain
address or an extended public key record. -/
inductive AddressRef where
  | plain (addr : Nat)
  | extendedPub (xpub : XPub)
deriving DecidableEq, Repr

/-- Modelled from the spec: `structs::wallet::ReservedPath` — one
`(seed_id, account_id)` reservation. -/
structure ReservedPath where
  seed_id : Nat
  account_id : Nat
deriving DecidableEq, Repr

/-- Modelled from the spec: `structs::wallet::WalletEntry` (§3); the
fields set by the Bitcoin add-entry workflow. -/
structure WalletEntry where
  id : Nat
  blockchain : Blockchain
  address : Option AddressRef
  key : PKType
deriving DecidableEq, Repr

/-- Modelled from the spec: `structs::wallet::Wallet` (§3). -/
structure Wallet where
  id : Nat
  entries : List WalletEntry
  entry_seq : Nat
  reserved : List ReservedPath
deriving DecidableEq, Repr

/-- Modelled from the spec: `Wallet::next_entry_id` — `entry_seq` is
"the next entry id" (§3); `structs/wallet.rs` is not under `src/`. -/
def Wallet.nextEntryId (w : Wallet) : Nat :=
  w.entry_seq

/-- Modelled from the spec: §4.4 step 6 — "register
`(seed_id, account_index)` in the wallet's reservation set"; the wallet
struct code performing the registration is not under `src/` (the
in-source tests of `vault_bitcoin.rs` observe exactly this effect). -/
def Wallet.reserve (w : Wallet) (r : ReservedPath) : Wallet :=
  if r ∈ w.reserved then w else { w with reserved := w.reserved ++ [r] }

/-- Keyed record store state: association list from UUID to record
(the file-backed `VaultAccessByFile` store, §4.2). -/
def Store (α : Type) : Type :=
  List (Nat × α)

/-- Modelled from the spec: `VaultAccessByFile::get` — `NotFound` when
the id is absent (§4.2). -/
def storeGet {α : Type} (l : Store α) (k : Nat) : Except VaultError α :=
  match l.find? (fun p => p.1 == k) with
  | some p => .ok p.2
  | none => .error (.NotFound k)

/-- Modelled from the spec: `VaultAccessByFile::update` — full replace
by id, `NotFound` if the id is unknown (§4.2, not an upsert). -/
def storeUpdate {α : Type} (l : Store α) (k : Nat) (v : α) :
    Except VaultError (Store α) :=
  if (l.find? (fun p => p.1 == k)).isSome then
    .ok (l.map (fun p => if p.1 == k then (k, v) else p))
  else
    .error (.NotFound k)

/-- The vault state visible to `AddBitcoinEntry`: the seed store and the
wallet store. -/
structure Vault where
  seeds : Store Seed
  wallets : Store Wallet

/-! ## External cryptography and hardware (capability parameters) -/

/-- The external EC library operations used by `get_address`
(`ExtendedPrivKey::new_master`, `derive_priv`,
`ExtendedPubKey::from_private`); the spec assumes the external library
is correct, so they are passed in as an abstract capability. -/
structure CryptoLib where
  newMaster : Network → List Nat → Except Unit Nat
  derivePriv : Nat → AccountHDPath → Except Unit Nat
  toPub : Nat → Nat

/-- Modelled from the spec: the `BitcoinApps` application ids of the
Ledger Bitcoin app (mainnet vs testnet). -/
inductive BitcoinApps where
  | mainnet
  | testnet
deriving DecidableEq, Repr

/-- The state of an attached Ledger device as observed through
`emerald_hwkey`: which application is open, and the extended public key
it returns for an account path.  `connect` failing is modelled by
passing `none` for the whole device. -/
structure LedgerDevice where
  openApp : Option BitcoinApps
  getXpub : AccountHDPath → Network → Except VaultError ExtendedPubKey

/-! ## `get_address` and `seed_hd` (from `src/storage/vault_bitcoin.rs`) -/

/-- Embeds `get_address` (vault_bitcoin.rs lines 34-50): build the
master key for the network, validate the account index, derive the
account-level private key and return its extended public key tagged
with the address type. -/
def get_address (lib : CryptoLib) (blockchain : Blockchain)
    (address_type : AddressType) (account : Nat) (seed : List Nat) :
    Except VaultError XPub :=
  let network := blockchain.asBitcoinNetwork
  match lib.newMaster network seed with
  | .error _ => .error .InvalidPrivateKey
  | .ok master =>
    if ¬ PathValue.isOk account then .error .PrivateKeyUnavailable
    else
      let acct := AddressType.getHdPath address_type account network
      match lib.derivePriv master acct with
      | .error _ => .error .PrivateKeyUnavailable
      | .ok xprv =>
        .ok { value := { network := network, key := lib.toPub xprv },
              address_type := address_type }

/-- Caller options for the add-entry workflow
(`storage::entry::AddEntryOptions`): an optional seed passphrase and an
optional caller-asserted extended public key. -/
structure AddEntryOptions where
  seed_password : Option String
  xpub : Option XPub
deriving DecidableEq, Repr

/-- Embeds the key-material branch of `seed_hd` (vault_bitcoin.rs lines
79-108): `Bytes` seeds require a passphrase and derive locally;
`Ledger` seeds query the device when it is reachable with the expected
application open, otherwise yield no key (allowing fallback to a
caller-supplied one). -/
def deriveXpub (lib : CryptoLib) (ledger : Option LedgerDevice)
    (source : SeedSource) (blockchain : Blockchain)
    (address_type : AddressType) (account : AccountHDPath)
    (opts : AddEntryOptions) : Except VaultError (Option XPub) :=
  match source with
  | .bytes enc =>
    match opts.seed_password with
    | some seed_password =>
      match enc.decrypt seed_password with
      | .error e => .error e
      | .ok s =>
        match get_address lib blockchain address_type account.account s with
        | .error e => .error e
        | .ok x => .ok (some x)
    | none => .error .PasswordRequired
  | .ledger _ =>
    match ledger with
    | some dev =>
      let expApp : Option BitcoinApps :=
        match blockchain with
        | .bitcoin => some .mainnet
        | .bitcoinTestnet => some .testnet
        | _ => none
      if expApp = none ∨ dev.openApp ≠ expApp then .ok none
      else
        match dev.getXpub account blockchain.asBitcoinNetwork with
        | .error e => .error e
        | .ok x => .ok (some (XPub.standard x))
    | none => .ok none

/-- Embeds the reconciliation / validation / persistence tail of
`seed_hd` (vault_bitcoin.rs lines 110-147): a caller-supplied xpub that
disagrees with a derived one fails `InvalidDataError`; absent both
fails `PublicKeyUnavailable`; a network-tag mismatch fails
`IncorrectBlockchainError`; otherwise the new entry is appended,
`entry_seq` bumped past the issued id, the `(seed_id, account)`
reservation registered (spec §4.4 step 6) and the wallet persisted. -/
def reconcilePersist (vault : Vault) (wallet_id : Nat) (seed_id : Nat)
    (blockchain : Blockchain) (account : AccountHDPath)
    (xpub0 : Option XPub) (opts : AddEntryOptions) :
    Except VaultError (Nat × Vault) :=
  if opts.xpub.isSome ∧ xpub0.isSome ∧ opts.xpub ≠ xpub0 then
    .error (.InvalidDataError "Different xpub")
  else
    match xpub0.orElse (fun _ => opts.xpub) with
    | none => .error .PublicKeyUnavailable
    | some xpub =>
      if xpub.value.network ≠ blockchain.asBitcoinNetwork then
        .error .IncorrectBlockchainError
      else
        let address_ref := AddressRef.extendedPub xpub
        match storeGet vault.wallets wallet_id with
        | .error e => .error e
        | .ok wallet =>
          let id := wallet.nextEntryId
          let entry : WalletEntry :=
            { id := id
              blockchain := blockchain
              address := some address_ref
              key := PKType.seedHd
                { seed_id := seed_id
                  hd_path := (account.addressAt 0 0).getD ⟨0, 0, 0, 0, 0⟩ } }
          let wallet := { wallet with entries := wallet.entries ++ [entry] }
          let wallet := { wallet with entry_seq := id + 1 }
          let wallet := wallet.reserve
            { seed_id := seed_id, account_id := account.account }
          match storeUpdate vault.wallets wallet_id wallet with
          | .error e => .error e
          | .ok ws => .ok (id, { vault with wallets := ws })

/-- Embeds `AddBitcoinEntry::seed_hd` (vault_bitcoin.rs lines 63-147):
validate the chain family, look up the seed, validate the path purpose,
obtain key material (`deriveXpub`, lines 79-108), then reconcile and
persist (`reconcilePersist`, lines 110-147).  Failures return the
untouched vault state by construction (the `.error` branches carry no
new state). -/
def seed_hd (lib : CryptoLib) (ledger : Option LedgerDevice)
    (vault : Vault) (wallet_id : Nat) (seed_id : Nat)
    (hd_path : AccountHDPath) (blockchain : Blockchain)
    (opts : AddEntryOptions) : Except VaultError (Nat × Vault) :=
  if blockchain.getType ≠ BlockchainType.bitcoin then
    .error .IncorrectBlockchainError
  else
    match storeGet vault.seeds seed_id with
    | .error e => .error e
    | .ok seed =>
      let address_type := AddressType.P2WPKH
      let account :=
        AddressType.getHdPath address_type hd_path.account
          blockchain.asBitcoinNetwork
      if account.purpose ≠ hd_path.purpose then
        .error (.UnsupportedDataError "Invalid HD Path purpose for address")
      else
        match deriveXpub lib ledger seed.source blockchain address_type
            account opts with
        | .error e => .error e
        | .ok xpub0 =>
          reconcilePersist vault wallet_id seed_id blockchain account
            xpub0 opts

/-! ## Helper lemmas about the record store -/

theorem find_isSome_of_storeGet {α : Type} {l : Store α} {k : Nat} {v : α}
    (h : storeGet l k = .ok v) :
    (l.find? (fun p => p.1 == k)).isSome = true := by
  unfold storeGet at h
  cases hf : l.find? (fun p => p.1 == k) with
  | none => rw [hf] at h; cases h
  | some p => simp

theorem storeUpdate_of_get {α : Type} {l : Store α} {k : Nat} {v : α}
    (h : storeGet l k = .ok v) (w : α) :
    storeUpdate l k w = .ok (l.map fun p => if p.1 == k then (k, w) else p) := by
  unfold storeUpdate
  rw [if_pos (find_isSome_of_storeGet h)]

theorem storeGet_map_update {α : Type} {l : Store α} {k : Nat} {v : α}
    (h : storeGet l k = .ok v) (w : α) :
    storeGet (l.map fun p => if p.1 == k then (k, w) else p) k = .ok w := by
  induction l with
  | nil => simp [storeGet] at h
  | cons a t ih =>
    by_cases hk : a.1 = k
    · simp [storeGet, List.find?, hk]
    · have hb : (a.1 == k) = false := by simp [hk]
      have h' : storeGet t k = .ok v := by
        unfold storeGet at h ⊢
        rwa [List.find?_cons_of_neg _ (by simp [hk])] at h
      have := ih h'
      unfold storeGet at this ⊢
      simpa [List.find?, hb] using this

/-- The entry appended by a successful `seed_hd` call. -/
def addedEntry (seed_id : Nat) (blockchain : Blockchain)
    (account : AccountHDPath) (xpub : XPub) (id : Nat) : WalletEntry :=
  { id := id
    blockchain := blockchain
    address := some (.extendedPub xpub)
    key := .seedHd
      { seed_id := seed_id
        hd_path := (account.addressAt 0 0).getD ⟨0, 0, 0, 0, 0⟩ } }

/-- The wallet state written back by a successful `seed_hd` call:
entry appended, `entry_seq` bumped, reservation registered. -/
def addedWallet (w : Wallet) (seed_id : Nat) (blockchain : Blockchain)
    (account : AccountHDPath) (xpub : XPub) : Wallet :=
  Wallet.reserve
    { w with
      entries := w.entries ++
        [addedEntry seed_id blockchain account xpub w.nextEntryId]
      entry_seq := w.nextEntryId + 1 }
    { seed_id := seed_id, account_id := account.account }

theorem seed_hd_guards {lib : CryptoLib} {ledger : Option LedgerDevice}
    {vault : Vault} {wallet_id seed_id : Nat} {hd_path : AccountHDPath}
    {blockchain : Blockchain} {opts : AddEntryOptions} {seed : Seed}
    {xpub0 : Option XPub}
    (hty : blockchain.getType = BlockchainType.bitcoin)
    (hseed : storeGet vault.seeds seed_id = .ok seed)
    (hpurpose : (AddressType.getHdPath .P2WPKH hd_path.account
      blockchain.asBitcoinNetwork).purpose = hd_path.purpose)
    (hderive : deriveXpub lib ledger seed.source blockchain .P2WPKH
      (AddressType.getHdPath .P2WPKH hd_path.account
        blockchain.asBitcoinNetwork) opts = .ok xpub0) :
    seed_hd lib ledger vault wallet_id seed_id hd_path blockchain opts =
      reconcilePersist vault wallet_id seed_id blockchain
        (AddressType.getHdPath .P2WPKH hd_path.account
          blockchain.asBitcoinNetwork) xpub0 opts := by
  unfold seed_hd
  rw [hty, hseed]
  simp only [ne_eq, not_true_eq_false, if_false, ite_false, hpurpose,
    hderive, not_false_eq_true]

/-! ## Concrete fixtures used by the witnesses -/

/-- A concrete external EC library for witnesses. -/
def libW : CryptoLib :=
  { newMaster := fun _ s => .ok (s.headD 0)
    derivePriv := fun m a => .ok (m + a.account)
    toPub := fun x => x }

/-- A byte-backed seed encrypted under passphrase "test". -/
def seedBytesW : Seed :=
  { id := 1, label := none, source := .bytes ⟨[5], "test"⟩ }

/-- A hardware-backed seed record. -/
def seedLedgerW : Seed :=
  { id := 1, label := none, source := .ledger [] }

/-- A fresh wallet. -/
def walletW : Wallet :=
  { id := 2, entries := [], entry_seq := 0, reserved := [] }

/-- Vault holding the byte-backed seed and the fresh wallet. -/
def vaultBytesW : Vault :=
  { seeds := [(1, seedBytesW)], wallets := [(2, walletW)] }

/-- Vault holding the hardware-backed seed and the fresh wallet. -/
def vaultLedgerW : Vault :=
  { seeds := [(1, seedLedgerW)], wallets := [(2, walletW)] }

/-- A caller-supplied mainnet extended public key. -/
def xpubMainW : XPub :=
  ⟨⟨.bitcoin, 7⟩, .P2WPKH⟩

/-- Claim C1: in `seed_hd`, when a key is derived from the seed or
device and the caller also supplies an xpub that differs from it, the
call fails with the "different key material" `InvalidDataError`
("Different xpub") and no entry is appended (failure returns no new
vault state); when no key can be derived (e.g. the device is
unavailable, `deriveXpub` yields `none`) but a caller-supplied xpub is
present, the call succeeds using the caller-supplied key; when neither
is present the call fails with `PublicKeyUnavailable`. -/
theorem seed_hd_reconciliation
    (lib : CryptoLib) (ledger : Option LedgerDevice) (vault : Vault)
    (wallet_id seed_id : Nat) (hd_path : AccountHDPath)
    (blockchain : Blockchain) (seed : Seed)
    (hty : blockchain.getType = BlockchainType.bitcoin)
    (hseed : storeGet vault.seeds seed_id = .ok seed)
    (hpurpose : (AddressType.getHdPath .P2WPKH hd_path.account
      blockchain.asBitcoinNetwork).purpose = hd_path.purpose) :
    (∀ opts X Y,
      deriveXpub lib ledger seed.source blockchain .P2WPKH
        (AddressType.getHdPath .P2WPKH hd_path.account
          blockchain.asBitcoinNetwork) opts = .ok (some X) →
      opts.xpub = some Y → Y ≠ X →
      seed_hd lib ledger vault wallet_id seed_id hd_path blockchain opts =
        .error (.InvalidDataError "Different xpub"))
    ∧ (∀ opts Y w,
      deriveXpub lib ledger seed.source blockchain .P2WPKH
        (AddressType.getHdPath .P2WPKH hd_path.account
          blockchain.asBitcoinNetwork) opts = .ok none →
      opts.xpub = some Y →
      Y.value.network = blockchain.asBitcoinNetwork →
      storeGet vault.wallets wallet_id = .ok w →
      ∃ vault',
        seed_hd lib ledger vault wallet_id seed_id hd_path blockchain opts =
          .ok (w.nextEntryId, vault') ∧
        storeGet vault'.wallets wallet_id =
          .ok (addedWallet w seed_id blockchain
            (AddressType.getHdPath .P2WPKH hd_path.account
              blockchain.asBitcoinNetwork) Y))
    ∧ (∀ opts,
      deriveXpub lib ledger seed.source blockchain .P2WPKH
        (AddressType.getHdPath .P2WPKH hd_path.account
          blockchain.asBitcoinNetwork) opts = .ok none →
      opts.xpub = none →
      seed_hd lib ledger vault wallet_id seed_id hd_path blockchain opts =
        .error .PublicKeyUnavailable) := by
  refine ⟨?_, ?_, ?_⟩
  · intro opts X Y hderive hY hYX
    rw [seed_hd_guards hty hseed hpurpose hderive]
    unfold reconcilePersist
    rw [if_pos]
    exact ⟨by simp [hY], by simp, by simp [hY, hYX]⟩
  · intro opts Y w hderive hY hnet hw
    rw [seed_hd_guards hty hseed hpurpose hderive]
    unfold reconcilePersist
    rw [if_neg (by simp)]
    simp only [Option.orElse, hY]
    rw [if_neg (by simp [hnet])]
    simp only [hw, storeUpdate_of_get hw]
    exact ⟨_, rfl, storeGet_map_update hw _⟩
  · intro opts hderive hY
    rw [seed_hd_guards hty hseed hpurpose hderive]
    unfold reconcilePersist
    rw [if_neg (by simp)]
    simp only [Option.orElse, hY]

/-- Witness for C1: concrete vaults exercising all three clauses
(derived key 8 vs supplied key 7; ledger unreachable with a supplied
key; ledger unreachable with no key at all). -/
theorem seed_hd_reconciliation_witness :
    seed_hd libW none vaultBytesW 2 1 ⟨84, 0, 3⟩ .bitcoin
        ⟨some "test", some xpubMainW⟩ =
      .error (.InvalidDataError "Different xpub")
    ∧ (∃ vault',
        seed_hd libW none vaultLedgerW 2 1 ⟨84, 0, 3⟩ .bitcoin
            ⟨none, some xpubMainW⟩ =
          .ok (walletW.nextEntryId, vault') ∧
        storeGet vault'.wallets 2 =
          .ok (addedWallet walletW 1 .bitcoin ⟨84, 0, 3⟩ xpubMainW))
    ∧ seed_hd libW none vaultLedgerW 2 1 ⟨84, 0, 3⟩ .bitcoin
        ⟨none, none⟩ = .error .PublicKeyUnavailable := by
  refine ⟨?_, ?_, ?_⟩
  · exact (seed_hd_reconciliation libW none vaultBytesW 2 1 ⟨84, 0, 3⟩
      .bitcoin seedBytesW rfl rfl rfl).1 ⟨some "test", some xpubMainW⟩
      ⟨⟨.bitcoin, 8⟩, .P2WPKH⟩ xpubMainW rfl rfl (by decide)
  · exact (seed_hd_reconciliation libW none vaultLedgerW 2 1 ⟨84, 0, 3⟩
      .bitcoin seedLedgerW rfl rfl rfl).2.1 ⟨none, some xpubMainW⟩
      xpubMainW walletW rfl rfl rfl rfl
  · exact (seed_hd_reconciliation libW none vaultLedgerW 2 1 ⟨84, 0, 3⟩
      .bitcoin seedLedgerW rfl rfl rfl).2.2 ⟨none, none⟩ rfl rfl

/-- Claim C6: when the reconciled extended public key's network tag
differs from the requested blockchain's network, `seed_hd` fails with
`IncorrectBlockchainError` (and appends no entry — the failure carries
no new vault state). -/
theorem seed_hd_network_mismatch
    (lib : CryptoLib) (ledger : Option LedgerDevice) (vault : Vault)
    (wallet_id seed_id : Nat) (hd_path : AccountHDPath)
    (blockchain : Blockchain) (seed : Seed) (opts : AddEntryOptions)
    (xpub0 : Option XPub) (X : XPub)
    (hty : blockchain.getType = BlockchainType.bitcoin)
    (hseed : storeGet vault.seeds seed_id = .ok seed)
    (hpurpose : (AddressType.getHdPath .P2WPKH hd_path.account
      blockchain.asBitcoinNetwork).purpose = hd_path.purpose)
    (hderive : deriveXpub lib ledger seed.source blockchain .P2WPKH
      (AddressType.getHdPath .P2WPKH hd_path.account
        blockchain.asBitcoinNetwork) opts = .ok xpub0)
    (hrec : ¬(opts.xpub.isSome ∧ xpub0.isSome ∧ opts.xpub ≠ xpub0))
    (hx : xpub0.orElse (fun _ => opts.xpub) = some X)
    (hnet : X.value.network ≠ blockchain.asBitcoinNetwork) :
    seed_hd lib ledger vault wallet_id seed_id hd_path blockchain opts =
      .error .IncorrectBlockchainError := by
  rw [seed_hd_guards hty hseed hpurpose hderive]
  unfold reconcilePersist
  rw [if_neg hrec, hx]
  simp only [if_pos hnet]

/-- Witness for C6: the in-source test scenario — a mainnet xpub
supplied while requesting a testnet-chain entry, hardware device
unreachable. -/
theorem seed_hd_network_mismatch_witness :
    seed_hd libW none vaultLedgerW 2 1 ⟨84, 1, 3⟩ .bitcoinTestnet
      ⟨none, some xpubMainW⟩ = .error .IncorrectBlockchainError := by
  exact seed_hd_network_mismatch libW none vaultLedgerW 2 1 ⟨84, 1, 3⟩
    .bitcoinTestnet seedLedgerW ⟨none, some xpubMainW⟩ none xpubMainW
    rfl rfl rfl rfl (by decide) rfl (by decide)

/-- Claim C7: for a `Bytes`-sourced seed with no caller-supplied
decryption passphrase, `seed_hd` fails with `PasswordRequired`; the
conclusion holds for every external cryptographic library and every
device state, so no decryption and no key derivation is performed. -/
theorem seed_hd_password_required
    (vault : Vault) (wallet_id seed_id : Nat) (hd_path : AccountHDPath)
    (blockchain : Blockchain) (seed : Seed) (enc : Encrypted)
    (opts : AddEntryOptions)
    (hty : blockchain.getType = BlockchainType.bitcoin)
    (hseed : storeGet vault.seeds seed_id = .ok seed)
    (hsrc : seed.source = .bytes enc)
    (hpurpose : (AddressType.getHdPath .P2WPKH hd_path.account
      blockchain.asBitcoinNetwork).purpose = hd_path.purpose)
    (hpw : opts.seed_password = none) :
    ∀ (lib : CryptoLib) (ledger : Option LedgerDevice),
      seed_hd lib ledger vault wallet_id seed_id hd_path blockchain opts =
        .error .PasswordRequired := by
  intro lib ledger
  have hderive : deriveXpub lib ledger seed.source blockchain .P2WPKH
      (AddressType.getHdPath .P2WPKH hd_path.account
        blockchain.asBitcoinNetwork) opts = .error .PasswordRequired := by
    rw [hsrc]
    unfold deriveXpub
    rw [hpw]
  unfold seed_hd
  rw [hty, hseed]
  simp only [ne_eq, not_true_eq_false, if_false, ite_false, hpurpose,
    hderive, not_false_eq_true]

/-- Witness for C7: a byte-backed seed with no passphrase supplied. -/
theorem seed_hd_password_required_witness :
    seed_hd libW none vaultBytesW 2 1 ⟨84, 0, 3⟩ .bitcoin ⟨none, none⟩ =
      .error .PasswordRequired := by
  exact seed_hd_password_required vaultBytesW 2 1 ⟨84, 0, 3⟩ .bitcoin
    seedBytesW ⟨[5], "test"⟩ ⟨none, none⟩ rfl rfl rfl rfl rfl libW none

/-! ## The wallet reservation invariant (C2) -/

/-- A wallet entry is "covered" when, if its key source is
seed-derived, its `(seed_id, account_index)` pair appears in the
wallet's reservation set. -/
def entryReserved (w : Wallet) (e : WalletEntry) : Bool :=
  match e.key with
  | .seedHd r =>
    decide ((⟨r.seed_id, r.hd_path.account⟩ : ReservedPath) ∈ w.reserved)
  | _ => true

/-- The spec's wallet invariant (§3): every seed-derived entry's
`(seed_id, account_index)` pair is reserved, and `entry_seq` strictly
exceeds every entry id. -/
def WalletInv (w : Wallet) : Prop :=
  (∀ e ∈ w.entries, entryReserved w e = true) ∧
  ∀ e ∈ w.entries, e.id < w.entry_seq

theorem reserve_entries (w : Wallet) (r : ReservedPath) :
    (w.reserve r).entries = w.entries := by
  unfold Wallet.reserve
  split <;> rfl

theorem reserve_entry_seq (w : Wallet) (r : ReservedPath) :
    (w.reserve r).entry_seq = w.entry_seq := by
  unfold Wallet.reserve
  split <;> rfl

theorem mem_reserve_self (w : Wallet) (r : ReservedPath) :
    r ∈ (w.reserve r).reserved := by
  unfold Wallet.reserve
  split
  · assumption
  · simp

theorem mem_reserve_of_mem (w : Wallet) {s : ReservedPath}
    (r : ReservedPath) (h : s ∈ w.reserved) : s ∈ (w.reserve r).reserved := by
  unfold Wallet.reserve
  split
  · exact h
  · simp [h]

theorem addressAt_zero (a : AccountHDPath) :
    a.addressAt 0 0 = some ⟨a.purpose, a.coin_type, a.account, 0, 0⟩ := by
  simp [AccountHDPath.addressAt, PathValue.isOk]

/-- Shape of a successful `reconcilePersist`: the wallet that existed
before the call is replaced by `addedWallet`, the issued id is the
wallet's `nextEntryId`, and the seed store is untouched. -/
theorem reconcilePersist_ok_shape {vault : Vault} {wid sid : Nat}
    {bc : Blockchain} {acct : AccountHDPath} {xpub0 : Option XPub}
    {opts : AddEntryOptions} {id : Nat} {vault' : Vault}
    (h : reconcilePersist vault wid sid bc acct xpub0 opts =
      .ok (id, vault')) :
    ∃ w xpub, storeGet vault.wallets wid = .ok w ∧ id = w.nextEntryId ∧
      vault'.seeds = vault.seeds ∧
      storeGet vault'.wallets wid = .ok (addedWallet w sid bc acct xpub) := by
  simp only [reconcilePersist] at h
  split at h
  · cases h
  · split at h
    · cases h
    · next xpub hx =>
      split at h
      · cases h
      · split at h
        · cases h
        · next w heq =>
          simp only [storeUpdate_of_get heq] at h
          simp only [Except.ok.injEq, Prod.mk.injEq] at h
          obtain ⟨hid, hv⟩ := h
          subst hv
          exact ⟨w, xpub, heq, hid.symm, rfl, storeGet_map_update heq _⟩

/-- Shape of a successful `seed_hd` call, in terms of `addedWallet`. -/
theorem seed_hd_ok_shape {lib : CryptoLib} {ledger : Option LedgerDevice}
    {vault : Vault} {wid sid : Nat} {hd_path : AccountHDPath}
    {bc : Blockchain} {opts : AddEntryOptions} {id : Nat} {vault' : Vault}
    (h : seed_hd lib ledger vault wid sid hd_path bc opts = .ok (id, vault')) :
    ∃ w xpub, storeGet vault.wallets wid = .ok w ∧ id = w.nextEntryId ∧
      vault'.seeds = vault.seeds ∧
      storeGet vault'.wallets wid =
        .ok (addedWallet w sid bc
          (AddressType.getHdPath .P2WPKH hd_path.account bc.asBitcoinNetwork)
          xpub) := by
  simp only [seed_hd] at h
  split at h
  · cases h
  · split at h
    · cases h
    · split at h
      · cases h
      · split at h
        · cases h
        · exact reconcilePersist_ok_shape h

/-- The `addedWallet` state preserves the wallet invariant and bumps
`entry_seq` by exactly one past the issued id. -/
theorem addedWallet_inv (w : Wallet) (sid : Nat) (bc : Blockchain)
    (acct : AccountHDPath) (x : XPub) (hinv : WalletInv w) :
    WalletInv (addedWallet w sid bc acct x) ∧
    (addedWallet w sid bc acct x).entry_seq = w.entry_seq + 1 := by
  obtain ⟨hres, hid⟩ := hinv
  have hseq : (addedWallet w sid bc acct x).entry_seq = w.entry_seq + 1 := by
    unfold addedWallet
    rw [reserve_entry_seq]
    rfl
  have hent : (addedWallet w sid bc acct x).entries =
      w.entries ++ [addedEntry sid bc acct x w.nextEntryId] := by
    unfold addedWallet
    rw [reserve_entries]
  have hmem : ∀ s ∈ w.reserved,
      s ∈ (addedWallet w sid bc acct x).reserved := by
    intro s hs
    unfold addedWallet
    exact mem_reserve_of_mem _ _ hs
  have hpair : (⟨sid, acct.account⟩ : ReservedPath) ∈
      (addedWallet w sid bc acct x).reserved := by
    unfold addedWallet
    exact mem_reserve_self _ _
  refine ⟨⟨?_, ?_⟩, hseq⟩
  · intro e he
    rw [hent] at he
    rcases List.mem_append.mp he with hin | hnew
    · have := hres e hin
      unfold entryReserved at this ⊢
      match hk : e.key with
      | .seedHd r =>
        rw [hk] at this
        simp only [decide_eq_true_eq] at this ⊢
        exact hmem _ this
      | .privateKeyRef i => rfl
    · have he' : e = addedEntry sid bc acct x w.nextEntryId := by
        simpa using hnew
      subst he'
      unfold entryReserved addedEntry
      simp only [addressAt_zero, Option.getD_some, decide_eq_true_eq]
      exact hpair
  · intro e he
    rw [hent] at he
    rw [hseq]
    rcases List.mem_append.mp he with hin | hnew
    · exact Nat.lt_succ_of_lt (hid e hin)
    · have he' : e = addedEntry sid bc acct x w.nextEntryId := by
        simpa using hnew
      subst he'
      exact Nat.lt_succ_self _

/-- One add-entry request: the capability parameters plus the
arguments of `seed_hd` other than the vault and wallet id. -/
structure SeedHdCall where
  lib : CryptoLib
  ledger : Option LedgerDevice
  seed_id : Nat
  hd_path : AccountHDPath
  blockchain : Blockchain
  opts : AddEntryOptions

/-- Applies a sequence of `seed_hd` calls to one wallet, keeping the
state of each successful call and collecting the issued entry ids
(failed calls leave the vault unchanged, exactly as in the code, where
an `Err` return performs no write). -/
def runCalls (wallet_id : Nat) : Vault → List SeedHdCall → Vault × List Nat
  | vault, [] => (vault, [])
  | vault, c :: rest =>
    match seed_hd c.lib c.ledger vault wallet_id c.seed_id c.hd_path
        c.blockchain c.opts with
    | .ok (id, vault') =>
      let r := runCalls wallet_id vault' rest
      (r.1, id :: r.2)
    | .error _ => runCalls wallet_id vault rest

theorem runCalls_inv (wid : Nat) (calls : List SeedHdCall) :
    ∀ (vault : Vault) (w : Wallet),
      storeGet vault.wallets wid = .ok w → WalletInv w →
      ∃ w', storeGet (runCalls wid vault calls).1.wallets wid = .ok w' ∧
        WalletInv w' ∧ w.entry_seq ≤ w'.entry_seq ∧
        ∀ i ∈ (runCalls wid vault calls).2,
          w.entry_seq ≤ i ∧ i < w'.entry_seq := by
  induction calls with
  | nil =>
    intro vault w hget hinv
    exact ⟨w, hget, hinv, Nat.le_refl _, by simp [runCalls]⟩
  | cons c rest ih =>
    intro vault w hget hinv
    unfold runCalls
    cases hs : seed_hd c.lib c.ledger vault wid c.seed_id c.hd_path
        c.blockchain c.opts with
    | error e => exact ih vault w hget hinv
    | ok p =>
      obtain ⟨id, vault'⟩ := p
      obtain ⟨w2, xpub, hget2, hid, _, hget'⟩ := seed_hd_ok_shape hs
      have hw2 : w2 = w := by
        rw [hget] at hget2
        cases hget2
        rfl
      subst hw2
      obtain ⟨hinv', hseq'⟩ := addedWallet_inv w2 c.seed_id c.blockchain
        (AddressType.getHdPath .P2WPKH c.hd_path.account
          c.blockchain.asBitcoinNetwork) xpub hinv
      obtain ⟨w', hg', hi', hle', hids'⟩ := ih vault' _ hget' hinv'
      rw [hseq'] at hle'
      refine ⟨w', hg', hi', Nat.le_of_succ_le hle', ?_⟩
      intro i him
      simp only [List.mem_cons] at him
      rcases him with him | him
      · subst him
        refine ⟨Nat.le_of_eq hid.symm, ?_⟩
        have hsucc : i + 1 ≤ w'.entry_seq := by
          have hi1 : i + 1 = w2.entry_seq + 1 := by rw [hid]; rfl
          rw [hi1]
          exact hle'
        exact hsucc
      · obtain ⟨h1, h2⟩ := hids' i him
        rw [hseq'] at h1
        exact ⟨Nat.le_of_succ_le h1, h2⟩

/-- Claim C2: after any sequence of `seed_hd` calls on one wallet
(keeping the successful ones), the final wallet satisfies the
reservation invariant — every seed-derived entry's
`(seed_id, account_index)` pair is present in `wallet.reserved` — and
`entry_seq` strictly exceeds every entry id and every id issued during
the sequence (ids are never reused). -/
theorem seed_hd_reservation_invariant
    (wid : Nat) (calls : List SeedHdCall) (vault : Vault) (w : Wallet)
    (hget : storeGet vault.wallets wid = .ok w) (hinv : WalletInv w) :
    ∃ w', storeGet (runCalls wid vault calls).1.wallets wid = .ok w' ∧
      (∀ e ∈ w'.entries, entryReserved w' e = true) ∧
      (∀ e ∈ w'.entries, e.id < w'.entry_seq) ∧
      ∀ i ∈ (runCalls wid vault calls).2, i < w'.entry_seq := by
  obtain ⟨w', hg, ⟨h1, h2⟩, _, hids⟩ := runCalls_inv wid calls vault w hget hinv
  exact ⟨w', hg, h1, h2, fun i hi => (hids i hi).2⟩

/-- Witness for C2: the empty fresh wallet, one successful byte-seed
call issuing entry id 0. -/
theorem seed_hd_reservation_invariant_witness :
    ∃ w', storeGet (runCalls 2 vaultBytesW
        [⟨libW, none, 1, ⟨84, 0, 3⟩, .bitcoin, ⟨some "test", none⟩⟩]).1.wallets
        2 = .ok w' ∧
      (∀ e ∈ w'.entries, entryReserved w' e = true) ∧
      (∀ e ∈ w'.entries, e.id < w'.entry_seq) ∧
      ∀ i ∈ (runCalls 2 vaultBytesW
        [⟨libW, none, 1, ⟨84, 0, 3⟩, .bitcoin, ⟨some "test", none⟩⟩]).2,
        i < w'.entry_seq := by
  exact seed_hd_reservation_invariant 2
    [⟨libW, none, 1, ⟨84, 0, 3⟩, .bitcoin, ⟨some "test", none⟩⟩]
    vaultBytesW walletW rfl (by constructor <;> simp [WalletInv, walletW])

/-! ## Keystore JSON serialization
(`src/emerald-core/src/keystore/serialize/mod.rs`) -/

/-- Modelled from the spec: `core::Address` (the `core` module is not
under `src/`) — a 160-bit Ethereum address, abstracted to its numeric
value; `to_string` is its (injective) rendering. -/
def addressToString (a : Nat) : String :=
  toString a

/-- Modelled from the spec: the `Crypto` payload of a keystore record
(cipher spec, KDF spec, ciphertext, MAC); its internal structure is not
inspected by the functions embedded here, so it is abstracted to its
raw bytes. -/
structure Crypto where
  data : List Nat
deriving DecidableEq, Repr

/-- The in-memory `KeyFile` as used by `serialize/mod.rs`: uuid,
address, optional name / description / visibility, crypto payload. -/
structure KeyFile where
  uuid : Nat
  address : Nat
  name : Option String
  description : Option String
  visible : Option Bool
  crypto : Crypto
deriving DecidableEq, Repr

/-- Embeds `SerializableKeyFile` (mod.rs lines 28-37): the JSON form
with its `version` field. -/
structure SerializableKeyFile where
  version : Nat
  id : Nat
  address : Nat
  name : Option String
  description : Option String
  visible : Option Bool
  crypto : Crypto
deriving DecidableEq, Repr

/-- Embeds `CURRENT_VERSION` (mod.rs line 22). -/
def CURRENT_VERSION : Nat := 3

/-- Embeds `SUPPORTED_VERSIONS` (mod.rs line 25): only V3. -/
def SUPPORTED_VERSIONS : List Nat := [CURRENT_VERSION]

/-- Embeds `From<KeyFile> for SerializableKeyFile` (mod.rs lines
39-51): always stamps `CURRENT_VERSION`. -/
def serializableOfKeyFile (kf : KeyFile) : SerializableKeyFile :=
  { version := CURRENT_VERSION
    id := kf.uuid
    address := kf.address
    name := kf.name
    description := kf.description
    visible := kf.visible
    crypto := kf.crypto }

/-- Embeds `Into<KeyFile> for SerializableKeyFile` (mod.rs lines
53-64). -/
def keyFileOfSerializable (sf : SerializableKeyFile) : KeyFile :=
  { uuid := sf.id
    address := sf.address
    name := sf.name
    description := sf.description
    visible := sf.visible
    crypto := sf.crypto }

/-- The keystore-module errors surfaced by the embedded functions. -/
inductive KeystoreError where
  | UnsupportedVersion (v : Nat)
  | NotFound
  | IoError
  | ParseError
deriving DecidableEq, Repr

/-- Embeds `impl Decodable for KeyFile` (mod.rs lines 122-132): decode
the serializable form (the JSON parse into `SerializableKeyFile` is the
"rest of the payload is well-formed" precondition, so its result is the
input here), reject any version outside `SUPPORTED_VERSIONS`, then
convert. -/
def decodeKeyFile (sf : SerializableKeyFile) : Except KeystoreError KeyFile :=
  if ¬ SUPPORTED_VERSIONS.contains sf.version then
    .error (.UnsupportedVersion sf.version)
  else
    .ok (keyFileOfSerializable sf)

/-- Claim C3: decoding a keystore record whose version field is any
value other than 3 fails with the unsupported-version error, even when
the rest of the payload is well-formed (i.e. it parsed into a full
`SerializableKeyFile`); no best-effort parsing is attempted. -/
theorem decode_version_gate (sf : SerializableKeyFile)
    (h : sf.version ≠ 3) :
    decodeKeyFile sf = .error (.UnsupportedVersion sf.version) := by
  unfold decodeKeyFile
  rw [if_pos]
  simp [SUPPORTED_VERSIONS, CURRENT_VERSION, List.contains, h]

/-- Witness for C3: the in-source test record with `version = 2` and a
well-formed remainder. -/
theorem decode_version_gate_witness :
    decodeKeyFile ⟨2, 9, 10, none, none, none, ⟨[]⟩⟩ =
      .error (.UnsupportedVersion 2) := by
  exact decode_version_gate ⟨2, 9, 10, none, none, none, ⟨[]⟩⟩ (by decide)

/-! ## `list_accounts` (mod.rs lines 165-196) -/

/-- One entry of the keystore directory as observed by
`list_accounts`: whether the `read_dir` entry is `Ok`, whether
`File::open` succeeds, whether `read_to_string` succeeds, and the
result of parsing the content as a `SerializableKeyFile` (`none` for
malformed JSON). -/
structure DirFile where
  entryOk : Bool
  openOk : Bool
  readOk : Bool
  parsed : Option SerializableKeyFile
deriving DecidableEq, Repr

/-- `json::decode::<KeyFile>` applied to one directory file: parse then
version-gate. -/
def decodeFile (f : DirFile) : Except KeystoreError KeyFile :=
  match f.parsed with
  | none => .error .ParseError
  | some sf => decodeKeyFile sf

/-- Embeds the loop body of `list_accounts` (mod.rs lines 170-193):
skip failed entries / opens / reads / decodes; for a decoded keyfile,
include it when `visible.is_none() || visible.unwrap() || show_hidden`
(the short-circuit makes `unwrap` reachable only under `some`, embedded
by the `match`), pushing `(name or "", address.to_string())`. -/
def listAccountsStep (show_hidden : Bool)
    (accounts : List (String × String)) (f : DirFile) :
    List (String × String) :=
  if ¬ f.entryOk then accounts
  else if ¬ f.openOk then accounts
  else if ¬ f.readOk then accounts
  else
    match decodeFile f with
    | .ok kf =>
      if (match kf.visible with | none => true | some b => b) || show_hidden
      then
        match kf.name with
        | some name => accounts ++ [(name, addressToString kf.address)]
        | none => accounts ++ [("", addressToString kf.address)]
      else accounts
    | .error _ => accounts

/-- Embeds `list_accounts` (mod.rs lines 165-196). -/
def list_accounts (files : List DirFile) (show_hidden : Bool) :
    List (String × String) :=
  files.foldl (listAccountsStep show_hidden) []

/-- The claim's description of `list_accounts`, written from the spec's
words: the `(label, address)` pairs of the successfully decoded
keyfiles, excluding a record with `visible == some false` unless
`show_hidden`, always including records whose flag is `true` or
absent. -/
def listAccountsSpec (files : List DirFile) (show_hidden : Bool) :
    List (String × String) :=
  (files.filter (fun f => f.entryOk && f.openOk && f.readOk)).filterMap
    (fun f =>
      match decodeFile f with
      | .ok kf =>
        if kf.visible = some false ∧ ¬ show_hidden then none
        else some (kf.name.getD "", addressToString kf.address)
      | .error _ => none)

/-- The contribution of a single file to the account list. -/
def accountOf (show_hidden : Bool) (f : DirFile) : List (String × String) :=
  listAccountsStep show_hidden [] f

theorem listAccountsStep_eq (show_hidden : Bool)
    (acc : List (String × String)) (f : DirFile) :
    listAccountsStep show_hidden acc f = acc ++ accountOf show_hidden f := by
  unfold accountOf listAccountsStep
  cases h1 : f.entryOk with
  | false => simp
  | true =>
  cases h2 : f.openOk with
  | false => simp
  | true =>
  cases h3 : f.readOk with
  | false => simp
  | true =>
  simp only [eq_self_iff_true, not_true, ite_false, List.nil_append]
  rcases hd : decodeFile f with e | kf
  · simp
  · rcases hv : kf.visible with _ | b
    · cases hn : kf.name <;> simp [hv, hn]
    · cases b <;> cases show_hidden <;> cases hn : kf.name <;>
        simp [hv, hn]

theorem foldl_listAccountsStep (show_hidden : Bool) (l : List DirFile) :
    ∀ acc, l.foldl (listAccountsStep show_hidden) acc =
      acc ++ l.foldl (listAccountsStep show_hidden) [] := by
  induction l with
  | nil => intro acc; simp
  | cons f rest ih =>
    intro acc
    rw [List.foldl_cons, List.foldl_cons, ih, listAccountsStep_eq,
      ih (listAccountsStep show_hidden [] f), listAccountsStep_eq]
    simp [List.append_assoc]

theorem listAccountsSpec_cons (show_hidden : Bool) (f : DirFile)
    (rest : List DirFile) :
    listAccountsSpec (f :: rest) show_hidden =
      accountOf show_hidden f ++ listAccountsSpec rest show_hidden := by
  unfold listAccountsSpec accountOf listAccountsStep
  cases h1 : f.entryOk with
  | false => simp [h1, List.filter_cons]
  | true =>
  cases h2 : f.openOk with
  | false => simp [h1, h2, List.filter_cons]
  | true =>
  cases h3 : f.readOk with
  | false => simp [h1, h2, h3, List.filter_cons]
  | true =>
  simp only [eq_self_iff_true, not_true, ite_false, List.filter_cons,
    h1, h2, h3, and_self, if_true, ite_true, List.filterMap_cons,
    List.nil_append]
  rcases hd : decodeFile f with e | kf
  · simp [List.filterMap_cons, hd]
  · rcases hv : kf.visible with _ | b
    · cases hn : kf.name <;>
        simp [List.filterMap_cons, hd, hv, hn, Option.getD]
    · cases b <;> cases show_hidden <;> cases hn : kf.name <;>
        simp [List.filterMap_cons, hd, hv, hn, Option.getD]

/-- Claim C8: `list_accounts` returns exactly the `(label, address)`
pairs of the successfully decoded keyfiles filtered by the per-record
visibility flag — `visible == false` records are excluded unless
`show_hidden` is set, while records whose flag is `true` or absent are
always included (absent treated as visible). -/
theorem list_accounts_eq_spec (files : List DirFile) (show_hidden : Bool) :
    list_accounts files show_hidden = listAccountsSpec files show_hidden := by
  induction files with
  | nil => rfl
  | cons f rest ih =>
    unfold list_accounts at ih ⊢
    rw [List.foldl_cons, foldl_listAccountsStep, listAccountsStep_eq, ih,
      listAccountsSpec_cons]
    simp

/-! ## `write`, `flush`, `hide`, `unhide` (mod.rs lines 74-80, 148-155,
204-226) -/

/-- The on-disk content of the destination file after a `write`. -/
inductive FileContent where
  | absent
  | partialContent
  | full (s : String)
deriving DecidableEq, Repr

/-- The I/O outcomes of the filesystem during one `write`: whether
`File::create` succeeds and whether `write_all` succeeds. -/
structure FsIo where
  createOk : Bool
  writeOk : Bool
deriving DecidableEq, Repr

/-- `rustc_serialize` `json::encode` of the derived
`SerializableKeyFile`: total for these well-typed records; the concrete
text is never inspected by the embedded functions, so a simple
injective rendering is used. -/
def jsonEncode (sf : SerializableKeyFile) : String :=
  String.intercalate ","
    [toString sf.version, toString sf.id, toString sf.address,
      sf.name.getD "", sf.description.getD "",
      toString (sf.visible.getD true),
      String.intercalate " " (sf.crypto.data.map toString)]

/-- Embeds `write` (mod.rs lines 148-155): serialize the keyfile,
create the destination file (failure propagates via `?`), then
`file.write_all(json.as_ref()).ok()` — the `Result` of the content
write is DISCARDED by `.ok()`, and `Ok(())` is returned.  The second
component is the resulting on-disk content: a failed `write_all`
leaves a partially written (here: empty-or-truncated) file behind. -/
def write (kf : KeyFile) (io : FsIo) :
    Except KeystoreError Unit × FileContent :=
  let json := jsonEncode (serializableOfKeyFile kf)
  if io.createOk then
    (.ok (), if io.writeOk then .full json else .partialContent)
  else
    (.error .IoError, .absent)

/-- Embeds `KeyFile::flush` (mod.rs lines 74-80): join the generated
`UTC--...` filename onto the directory and delegate to `write` (the
path itself does not influence the result). -/
def flush (kf : KeyFile) (io : FsIo) :
    Except KeystoreError Unit × FileContent :=
  write kf io

/-- Embeds `hide` (mod.rs lines 204-211): locate the keyfile by
address (`search_by_address`, whose outcome is the `found` argument),
set `visible = Some(false)`, `write` it back, return `Ok(true)`. -/
def hide (found : Option KeyFile) (io : FsIo) :
    Except KeystoreError Bool × FileContent :=
  match found with
  | none => (.error .NotFound, .absent)
  | some kf =>
    let r := write { kf with visible := some false } io
    match r.1 with
    | .ok _ => (.ok true, r.2)
    | .error e => (.error e, r.2)

/-- Embeds `unhide` (mod.rs lines 219-226): as `hide` but setting
`visible = Some(true)`. -/
def unhide (found : Option KeyFile) (io : FsIo) :
    Except KeystoreError Bool × FileContent :=
  match found with
  | none => (.error .NotFound, .absent)
  | some kf =>
    let r := write { kf with visible := some true } io
    match r.1 with
    | .ok _ => (.ok true, r.2)
    | .error e => (.error e, r.2)

/-- Claim C10: `write` returns `Ok(())` whenever the destination file
can be created (the keyfile always serializes), even when writing the
JSON bytes fails — the content-write result is discarded — so a
partially written keyfile on disk is reported as success; `flush`,
`hide` and `unhide`, which delegate to `write`, inherit this: with a
failing content write they report success over a partial file. -/
theorem write_discards_content_result (kf : KeyFile) (io : FsIo)
    (h : io.createOk = true) :
    (write kf io).1 = .ok () ∧
    (write kf ⟨true, false⟩).2 = .partialContent ∧
    (flush kf ⟨true, false⟩).1 = .ok () ∧
    hide (some kf) ⟨true, false⟩ = (.ok true, .partialContent) ∧
    unhide (some kf) ⟨true, false⟩ = (.ok true, .partialContent) := by
  refine ⟨?_, rfl, rfl, rfl, rfl⟩
  unfold write
  rw [if_pos h]

/-- Witness for C10: a concrete keyfile, file created but content
write failing. -/
theorem write_discards_content_result_witness :
    (write ⟨9, 10, some "acct", none, none, ⟨[1, 2]⟩⟩ ⟨true, false⟩).1 =
      .ok () ∧
    (write ⟨9, 10, some "acct", none, none, ⟨[1, 2]⟩⟩ ⟨true, false⟩).2 =
      .partialContent ∧
    (flush ⟨9, 10, some "acct", none, none, ⟨[1, 2]⟩⟩ ⟨true, false⟩).1 =
      .ok () ∧
    hide (some ⟨9, 10, some "acct", none, none, ⟨[1, 2]⟩⟩) ⟨true, false⟩ =
      (.ok true, .partialContent) ∧
    unhide (some ⟨9, 10, some "acct", none, none, ⟨[1, 2]⟩⟩) ⟨true, false⟩ =
      (.ok true, .partialContent) := by
  exact write_discards_content_result
    ⟨9, 10, some "acct", none, none, ⟨[1, 2]⟩⟩ ⟨true, false⟩ rfl

/-! ## Protobuf conversion of `PrivateKeyHolder`
(`src/src/convert/proto/pk.rs`) -/

/-- The `ConversionError` variants raised by `pk.rs`. -/
inductive ConversionError where
  | InvalidFieldValue (f : String)
  | FieldIsEmpty (f : String)
deriving DecidableEq, Repr

/-- `structs::pk::EthereumPk3` — optional cached address plus the
encrypted key blob (`structs/pk.rs` is not under `src/`; fields as used
by `pk.rs`). -/
structure EthereumPk3 where
  address : Option Nat
  key : Encrypted
deriving DecidableEq, Repr

/-- `structs::pk::PrivateKeyType` — the only variant is the Ethereum
one. -/
inductive PrivateKeyType where
  | EthereumPk (v : EthereumPk3)
deriving DecidableEq, Repr

/-- `structs::pk::PrivateKeyHolder` (§3). -/
structure PrivateKeyHolder where
  id : Nat
  pk : PrivateKeyType
deriving DecidableEq, Repr

/-- Modelled from the spec: the protobuf `Encrypted` message; the
`Encrypted` ↔ `proto_Encrypted` conversions live in a convert module
not under `src/` and are faithful, so the message carries the container
itself. -/
structure ProtoEncrypted where
  payload : Encrypted
deriving DecidableEq, Repr

/-- Modelled from the spec: protobuf `EthereumPK3` message.  The
`address` field is a protobuf string rendering of `core::Address` (the
`core` module is not under `src/`); an unset field reads back as the
empty string, which `Address::from_str` rejects, so the observable
content is the optional address value. -/
structure ProtoEthereumPK3 where
  address : Option Nat
  value : Option ProtoEncrypted
deriving DecidableEq, Repr

/-- Modelled from the spec: protobuf `EthereumPrivateKey` message. -/
structure ProtoEthereumPrivateKey where
  pk : Option ProtoEthereumPK3
deriving DecidableEq, Repr

/-- Modelled from the spec: protobuf `PrivateKey` message (§6); the
`id` field is a string rendering of the UUID (unparsable or empty reads
back as `none`), `ethereum` is the oneof chain payload. -/
structure ProtoPrivateKey where
  id : Option Nat
  ethereum : Option ProtoEthereumPrivateKey
deriving DecidableEq, Repr

/-- Modelled from the spec: `Encrypted::try_from(&proto_Encrypted)`
(convert module not under `src/`). -/
def protoEncryptedInto (v : ProtoEncrypted) : Except ConversionError Encrypted :=
  .ok v.payload

/-- Modelled from the spec: `proto_Encrypted::try_from(&Encrypted)`
(convert module not under `src/`). -/
def protoEncryptedOf (e : Encrypted) : Except ConversionError ProtoEncrypted :=
  .ok ⟨e⟩

/-- Embeds `TryFrom<&[u8]> for PrivateKeyHolder` (pk.rs lines 22-53) at
the message level (`parse_from_bytes` of the external protobuf library
is assumed faithful, per the spec's external-library assumption):
require the ethereum payload, its `pk`, its `value`; convert the
encrypted blob; accept a parseable address or fall back to `None`;
require a parseable id. -/
def decodePrivateKey (m : ProtoPrivateKey) :
    Except ConversionError PrivateKeyHolder :=
  match m.ethereum with
  | some eth =>
    match eth.pk with
    | some pk =>
      match pk.value with
      | some v =>
        match protoEncryptedInto v with
        | .error e => .error e
        | .ok key =>
          let address := pk.address
          match m.id with
          | some u =>
            .ok { id := u, pk := .EthereumPk { address := address, key := key } }
          | none => .error (.InvalidFieldValue "id")
      | none => .error (.FieldIsEmpty "encrypted")
    | none => .error (.FieldIsEmpty "pk")
  | none => .error (.InvalidFieldValue "pk")

/-- Embeds `TryFrom<PrivateKeyHolder> for Vec<u8>` (pk.rs lines 65-88)
at the message level (`write_to_bytes` assumed faithful): build the
nested ethereum message, set the address only when present, convert
the encrypted blob. -/
def encodePrivateKey (value : PrivateKeyHolder) :
    Except ConversionError ProtoPrivateKey :=
  match value.pk with
  | .EthereumPk it =>
    match protoEncryptedOf it.key with
    | .error e => .error e
    | .ok enc =>
      .ok { id := some value.id
            ethereum := some { pk := some { address := it.address, value := some enc } } }

/-- Claim C9: for every `PrivateKeyHolder` (its key is always the
Ethereum variant), a successful protobuf encode followed by decode is
the identity — same id, same optional cached address, same encrypted
key blob. -/
theorem privateKey_roundtrip (h : PrivateKeyHolder) (m : ProtoPrivateKey)
    (henc : encodePrivateKey h = .ok m) :
    decodePrivateKey m = .ok h := by
  cases h with
  | mk id pk =>
    cases pk with
    | EthereumPk it =>
      simp only [encodePrivateKey, protoEncryptedOf, Except.ok.injEq] at henc
      subst henc
      simp [decodePrivateKey, protoEncryptedInto]

/-- Witness for C9: a concrete Ethereum private-key record with a
cached address round-trips. -/
theorem privateKey_roundtrip_witness :
    decodePrivateKey ⟨some 9, some ⟨some ⟨some 10, some ⟨⟨[1], "p"⟩⟩⟩⟩⟩ =
      .ok ⟨9, .EthereumPk ⟨some 10, ⟨[1], "p"⟩⟩⟩ := by
  exact privateKey_roundtrip ⟨9, .EthereumPk ⟨some 10, ⟨[1], "p"⟩⟩⟩
    ⟨some 9, some ⟨some ⟨some 10, some ⟨⟨[1], "p"⟩⟩⟩⟩⟩ rfl

/-! ## Ledger APDU framing (`src/emerald-core/src/hdwallet/ledger.rs`) -/

/-- Embeds `LEDGER_SIGN_TX_CLA` (ledger.rs line 9). -/
def LEDGER_SIGN_TX_CLA : Nat := 0xe2

/-- Embeds `LEDGER_SIGN_TX_INS` (ledger.rs line 10). -/
def LEDGER_SIGN_TX_INS : Nat := 0x04

/-- Embeds `DATA_CHUNK_SIZE` (ledger.rs line 11). -/
def DATA_CHUNK_SIZE : Nat := 255

/-- Modelled from the spec: `U2FAPDUHEADER_SIZE` of the `u2fhid` module
(not under `src/`) — the packed APDU header `{cla, ins, p1, p2, lc[3]}`
occupies 7 bytes (§4.5 fixed binary layout). -/
def U2FAPDUHEADER_SIZE : Nat := 7

/-- The `U2FAPDUHeader` command header (`u2fhid` module, §4.5):
class, instruction, two parameters and a 3-byte length field. -/
structure U2FAPDUHeader where
  cla : Nat
  ins : Nat
  p1 : Nat
  p2 : Nat
  lc : List Nat
deriving DecidableEq, Repr

/-- Embeds `Ledger::get_sign_tx_header` (ledger.rs lines 19-27):
`lc = [0, (len >> 8) as u8, (len & 0xff) as u8]` (the u8 casts are the
explicit `% 256`). -/
def get_sign_tx_header (p1 len : Nat) : U2FAPDUHeader :=
  { cla := LEDGER_SIGN_TX_CLA
    ins := LEDGER_SIGN_TX_INS
    p1 := p1
    p2 := 0x00
    lc := [0, (len >>> 8) % 256, len % 256] }

/-- Modelled from the spec: `to_u8_array` of the packed header — its 7
bytes in field order. -/
def to_u8_array (h : U2FAPDUHeader) : List Nat :=
  [h.cla, h.ins, h.p1, h.p2] ++ h.lc

/-- Embeds the frames sent by `Ledger::sign_tx` (ledger.rs lines
33-70): ONE `data_vec` of size `size_of::<U2FAPDUHeader>() + tr.len()
+ 2`, zero-initialized, with the header copied into bytes `0..7` and
the payload into bytes `7..7+len` (the final two bytes keep their zero
initialization).  The continuation-chunk path (lines 34 and 51-67) is
commented out in the source, so no further frames are ever
produced. -/
def sign_tx_frames (tr : List Nat) : List (List Nat) :=
  let header := get_sign_tx_header 0x00 tr.length
  let header_raw := to_u8_array header
  let data_vec := header_raw ++ tr ++ List.replicate 2 0
  [data_vec]

/-- Device-side view: the payload length encoded big-endian in the two
low `lc` bytes of a frame (offsets 5 and 6). -/
def frameLen (frame : List Nat) : Nat :=
  frame.getD 5 0 * 256 + frame.getD 6 0

/-- Device-side view: the payload bytes of a frame, as delimited by its
header length field. -/
def framePayload (frame : List Nat) : List Nat :=
  (frame.drop U2FAPDUHEADER_SIZE).take (frameLen frame)

/-- Counterexample to claim C4: a 256-byte payload exceeds
`DATA_CHUNK_SIZE`, yet `sign_tx` produces exactly one frame — it is
never split into a first frame plus continuation frames. -/
theorem sign_tx_no_chunking_counterexample :
    DATA_CHUNK_SIZE < (List.replicate 256 7).length ∧
    (sign_tx_frames (List.replicate 256 7)).length = 1 ∧
    ¬ 2 ≤ (sign_tx_frames (List.replicate 256 7)).length := by
  refine ⟨?_, rfl, ?_⟩
  · simp only [DATA_CHUNK_SIZE, List.length_replicate]
    omega
  · intro hle
    rw [show (sign_tx_frames (List.replicate 256 7)).length = 1 from rfl]
      at hle
    omega

/-- Claim C4 (amended): for every payload — even one exceeding
`DATA_CHUNK_SIZE` — `sign_tx` sends exactly one frame, the header
followed by the payload and two zero bytes; the continuation path is
absent.  The payload the device reconstructs from that single frame via
the header's length field equals the original bytes (for any payload
that fits the 16-bit length field). -/
theorem sign_tx_single_frame (tr : List Nat) (h : tr.length < 65536) :
    (sign_tx_frames tr).length = 1 ∧
    (sign_tx_frames tr).headD [] =
      to_u8_array (get_sign_tx_header 0x00 tr.length) ++ tr ++ [0, 0] ∧
    framePayload ((sign_tx_frames tr).headD []) = tr := by
  refine ⟨rfl, by simp [sign_tx_frames], ?_⟩
  have h2 : (2 : Nat) ^ 8 = 256 := by norm_num
  have hlen : tr.length >>> 8 % 256 * 256 + tr.length % 256 = tr.length := by
    rw [Nat.shiftRight_eq_div_pow, h2]
    omega
  unfold sign_tx_frames framePayload frameLen to_u8_array get_sign_tx_header
  simp only [U2FAPDUHEADER_SIZE, LEDGER_SIGN_TX_CLA, LEDGER_SIGN_TX_INS,
    List.replicate, List.headD, List.cons_append, List.nil_append,
    List.getD_cons_succ, List.getD_cons_zero, List.drop_succ_cons,
    List.drop_zero]
  rw [hlen]
  exact List.take_left tr [0, 0]

/-- Witness for the amended C4: a 300-byte payload (exceeding
`DATA_CHUNK_SIZE`) goes out as one frame whose device-side payload is
the original bytes. -/
theorem sign_tx_single_frame_witness :
    (sign_tx_frames (List.replicate 300 7)).length = 1 ∧
    (sign_tx_frames (List.replicate 300 7)).headD [] =
      to_u8_array (get_sign_tx_header 0x00 (List.replicate 300 7).length) ++
        List.replicate 300 7 ++ [0, 0] ∧
    framePayload ((sign_tx_frames (List.replicate 300 7)).headD []) =
      List.replicate 300 7 := by
  exact sign_tx_single_frame (List.replicate 300 7)
    (by simp only [List.length_replicate]; omega)

/-! ## Storage bootstrap (`src/src/storage.rs`) -/

/-- Filesystem state for the bootstrap layer: the directories that
exist, and which paths the process is able to create (permissions,
parent existence). -/
structure DirFs where
  dirs : List String
  canCreate : String → Bool

/-- The io::Error outcomes of `fs::create_dir` in this model. -/
inductive FsError where
  | ioError
deriving DecidableEq, Repr

/-- `std::fs::create_dir`: creates the directory or fails with an io
error. -/
def createDir (fs : DirFs) (p : String) : Except FsError DirFs :=
  if fs.canCreate p then .ok { fs with dirs := p :: fs.dirs }
  else .error .ioError

/-- Embeds `Storages::init` (storage.rs lines 64-72): when the base
directory does not exist, log and call `fs::create_dir` on it
(propagating its io error via `?`); return `Ok(())`. -/
def storagesInit (fs : DirFs) (base_dir : String) : Except FsError DirFs :=
  if ¬ fs.dirs.contains base_dir then createDir fs base_dir
  else .ok fs

/-- Counterexample to claim C5: with no directories present, `init` on
the missing base directory returns `Ok` — not a fatal error — and the
core itself has created the directory.  (No `StorageUnavailable`
variant exists anywhere in `storage.rs`; its error type is plain
`io::Error`.) -/
theorem storages_init_counterexample :
    ("emerald" ∈ ([] : List String) → False) ∧
    storagesInit ⟨[], fun _ => true⟩ "emerald" =
      .ok ⟨["emerald"], fun _ => true⟩ := by
  exact ⟨fun hmem => by simp at hmem, rfl⟩

/-- Claim C5 (amended): when the storage base directory does not
exist, `Storages::init` creates it itself via `fs::create_dir` and
returns `Ok`; the only failure mode is the underlying io error when
creation is impossible — a missing directory is never surfaced as a
fatal `StorageUnavailable` condition. -/
theorem storages_init_creates (fs : DirFs) (base : String)
    (h : fs.dirs.contains base = false) :
    (fs.canCreate base = true →
      storagesInit fs base = .ok ⟨base :: fs.dirs, fs.canCreate⟩) ∧
    (fs.canCreate base = false →
      storagesInit fs base = .error .ioError) := by
  have hcond : ¬ fs.dirs.contains base = true := by
    intro hx
    rw [h] at hx
    cases hx
  constructor <;> intro hc
  · unfold storagesInit createDir
    rw [if_pos hcond, if_pos hc]
  · unfold storagesInit createDir
    rw [if_pos hcond, if_neg (by simp [hc])]

/-- Witness for the amended C5: the empty filesystem. -/
theorem storages_init_creates_witness :
    (((⟨[], fun _ => true⟩ : DirFs).canCreate "emerald" = true →
      storagesInit ⟨[], fun _ => true⟩ "emerald" =
        .ok ⟨"emerald" :: [], fun _ => true⟩)) ∧
    (((⟨[], fun _ => true⟩ : DirFs).canCreate "emerald" = false →
      storagesInit ⟨[], fun _ => true⟩ "emerald" = .error .ioError)) := by
  exact storages_init_creates ⟨[], fun _ => true⟩ "emerald" rfl

end EmeraldVault
